import Mathlib

/-!
# MapleClear backend adapter layer: a shallow embedding

This file embeds the response-normalization and backend-adapter layer of
the MapleClear server (`server/backends/*.py`, `server/prompts/schema.py`)
in Lean 4 and proves properties of it.

Conventions of the embedding:
* Python strings are `List Char`; a Lean string literal `s` is injected via
  `s.data`.
* JSON values are the inductive `Json`; `jsonParse` models Python's strict
  `json.loads` (objects, arrays, strings with escapes, numbers as exact
  rationals, `true`/`false`/`null`; the non-standard `NaN`/`Infinity`
  literals accepted by CPython are not modelled, no claim input uses them).
* Python exceptions are the inductive `PyExc`; a function that can raise
  returns `Except PyExc α`.  Exception messages are not modelled.
* Pydantic response models are structures; `...FromKwargs` functions model
  constructing a model from a `**data` JSON object: unknown keys are
  ignored, missing keys take the declared default or fail validation when
  the field is required, and values are validated strictly by type.
* External engines are modelled by outcome parameters (the HTTP reply, the
  subprocess wait outcome); external libraries (`textstat`) are abstracted
  as function parameters.
-/

namespace MapleClear

/-! ## JSON values and Python `json.loads` -/

/-- An exact decimal `mant * 10 ^ exp10`, the value of a JSON number
literal.  (Python reads numbers into binary doubles; at the granularity of
every claim here the exact decimal value is a faithful abstraction.) -/
structure PyFloat where
  mant : ℤ
  exp10 : ℤ
deriving DecidableEq

/-- The rational value of a decimal. -/
def PyFloat.toRat (x : PyFloat) : ℚ :=
  (x.mant : ℚ) * (10 : ℚ) ^ x.exp10

/-- A whole number as a decimal. -/
def PyFloat.ofInt (n : ℤ) : PyFloat := ⟨n, 0⟩

inductive Json where
  | null : Json
  | bool (b : Bool) : Json
  | num (q : PyFloat) : Json
  | str (s : List Char) : Json
  | arr (elems : List Json) : Json
  | obj (fields : List (List Char × Json)) : Json

/-- The four whitespace characters JSON allows between tokens. -/
def isJsonWs (c : Char) : Bool :=
  c = ' ' || c = '\t' || c = '\n' || c = '\r'

/-- Whitespace characters stripped by Python `str.strip()` (ASCII part). -/
def isPyWs (c : Char) : Bool :=
  c = ' ' || c = '\t' || c = '\n' || c = '\r' || c = '\x0b' || c = '\x0c'

/-- Python `s.strip()`: drop whitespace from both ends. -/
def pyStrip (cs : List Char) : List Char :=
  ((cs.dropWhile isPyWs).reverse.dropWhile isPyWs).reverse

def skipWs (cs : List Char) : List Char :=
  cs.dropWhile isJsonWs

def isHexDigit (c : Char) : Bool :=
  c.isDigit || ('a' ≤ c && c ≤ 'f') || ('A' ≤ c && c ≤ 'F')

def hexVal (c : Char) : Nat :=
  if c.isDigit then c.toNat - '0'.toNat
  else if 'a' ≤ c && c ≤ 'f' then c.toNat - 'a'.toNat + 10
  else c.toNat - 'A'.toNat + 10

/-- Body of a JSON string literal, after the opening quote.  Returns the
decoded characters and the remaining input after the closing quote.
Strict mode: unescaped control characters are rejected. -/
def parseStrBody : List Char → Option (List Char × List Char)
  | [] => none
  | '"' :: rest => some ([], rest)
  | '\\' :: 'u' :: h1 :: h2 :: h3 :: h4 :: rest =>
      if isHexDigit h1 && isHexDigit h2 && isHexDigit h3 && isHexDigit h4 then
        match parseStrBody rest with
        | some (s, r) =>
            some (Char.ofNat
              (((hexVal h1 * 16 + hexVal h2) * 16 + hexVal h3) * 16 + hexVal h4) :: s, r)
        | none => none
      else none
  | '\\' :: e :: rest =>
      let dec : Option Char :=
        if e = '"' then some '"'
        else if e = '\\' then some '\\'
        else if e = '/' then some '/'
        else if e = 'b' then some '\x08'
        else if e = 'f' then some '\x0c'
        else if e = 'n' then some '\n'
        else if e = 'r' then some '\r'
        else if e = 't' then some '\t'
        else none
      match dec with
      | some d =>
          match parseStrBody rest with
          | some (s, r) => some (d :: s, r)
          | none => none
      | none => none
  | c :: rest =>
      if c.toNat < 32 then none
      else
        match parseStrBody rest with
        | some (s, r) => some (c :: s, r)
        | none => none

def digitsToNat (ds : List Char) : Nat :=
  ds.foldl (fun a c => a * 10 + (c.toNat - '0'.toNat)) 0

/-- JSON number grammar: `-?(0|[1-9][0-9]*)(\.[0-9]+)?([eE][+-]?[0-9]+)?`,
with the value as an exact decimal. -/
def parseNum (cs : List Char) : Option (PyFloat × List Char) :=
  let (neg, cs1) : Bool × List Char :=
    match cs with
    | '-' :: t => (true, t)
    | _ => (false, cs)
  let intDs := cs1.takeWhile Char.isDigit
  let cs2 := cs1.drop intDs.length
  if intDs = [] then none
  else if 1 < intDs.length ∧ intDs.headD '0' = '0' then none
  else
    let (fracDs, cs3) : List Char × List Char :=
      match cs2 with
      | '.' :: t => (t.takeWhile Char.isDigit, (t.takeWhile Char.isDigit).length |> t.drop)
      | _ => ([], cs2)
    if cs2.headD ' ' = '.' ∧ fracDs = [] then none
    else
      let (hasExp, expNeg, expDs, cs4) : Bool × Bool × List Char × List Char :=
        match cs3 with
        | 'e' :: '+' :: t => (true, false, t.takeWhile Char.isDigit, t.drop (t.takeWhile Char.isDigit).length)
        | 'e' :: '-' :: t => (true, true, t.takeWhile Char.isDigit, t.drop (t.takeWhile Char.isDigit).length)
        | 'e' :: t => (true, false, t.takeWhile Char.isDigit, t.drop (t.takeWhile Char.isDigit).length)
        | 'E' :: '+' :: t => (true, false, t.takeWhile Char.isDigit, t.drop (t.takeWhile Char.isDigit).length)
        | 'E' :: '-' :: t => (true, true, t.takeWhile Char.isDigit, t.drop (t.takeWhile Char.isDigit).length)
        | 'E' :: t => (true, false, t.takeWhile Char.isDigit, t.drop (t.takeWhile Char.isDigit).length)
        | _ => (false, false, [], cs3)
      if hasExp ∧ expDs = [] then none
      else
        let mantissa : ℤ := (digitsToNat (intDs ++ fracDs) : ℤ)
        let e : ℤ := (if expNeg then -(digitsToNat expDs : ℤ) else (digitsToNat expDs : ℤ))
          - (fracDs.length : ℤ)
        some (⟨if neg then -mantissa else mantissa, e⟩, cs4)

mutual

/-- One JSON value (fuel-indexed recursive descent, models `json.loads`). -/
def parseVal : Nat → List Char → Option (Json × List Char)
  | 0, _ => none
  | fuel + 1, cs =>
    match skipWs cs with
    | [] => none
    | c :: rest =>
      if c = 'n' then
        match rest with
        | 'u' :: 'l' :: 'l' :: r => some (.null, r)
        | _ => none
      else if c = 't' then
        match rest with
        | 'r' :: 'u' :: 'e' :: r => some (.bool true, r)
        | _ => none
      else if c = 'f' then
        match rest with
        | 'a' :: 'l' :: 's' :: 'e' :: r => some (.bool false, r)
        | _ => none
      else if c = '"' then
        match parseStrBody rest with
        | some (s, r) => some (.str s, r)
        | none => none
      else if c = '-' || c.isDigit then
        match parseNum (c :: rest) with
        | some (q, r) => some (.num q, r)
        | none => none
      else if c = '[' then
        match skipWs rest with
        | ']' :: r => some (.arr [], r)
        | _ =>
          match parseArrItems fuel rest with
          | some (xs, r) => some (.arr xs, r)
          | none => none
      else if c = '{' then
        match skipWs rest with
        | '}' :: r => some (.obj [], r)
        | _ =>
          match parseObjItems fuel rest with
          | some (fs, r) => some (.obj fs, r)
          | none => none
      else none

/-- Comma-separated array elements up to the closing bracket. -/
def parseArrItems : Nat → List Char → Option (List Json × List Char)
  | 0, _ => none
  | fuel + 1, cs =>
    match parseVal fuel cs with
    | none => none
    | some (v, r) =>
      match skipWs r with
      | ',' :: r2 =>
        match parseArrItems fuel r2 with
        | some (xs, r3) => some (v :: xs, r3)
        | none => none
      | ']' :: r2 => some ([v], r2)
      | _ => none

/-- Comma-separated `"key": value` members up to the closing brace. -/
def parseObjItems : Nat → List Char → Option (List (List Char × Json) × List Char)
  | 0, _ => none
  | fuel + 1, cs =>
    match skipWs cs with
    | '"' :: rest =>
      match parseStrBody rest with
      | none => none
      | some (k, r) =>
        match skipWs r with
        | ':' :: r2 =>
          match parseVal fuel r2 with
          | none => none
          | some (v, r3) =>
            match skipWs r3 with
            | ',' :: r4 =>
              match parseObjItems fuel r4 with
              | some (fs, r5) => some ((k, v) :: fs, r5)
              | none => none
            | '}' :: r4 => some ([(k, v)], r4)
            | _ => none
        | _ => none
    | _ => none

end

/-- Python `json.loads`: a single JSON value with only whitespace around it. -/
def jsonParse (cs : List Char) : Option Json :=
  match parseVal (cs.length + 1) cs with
  | some (v, rest) => if skipWs rest = [] then some v else none
  | none => none

/-- Python dict built from an object's key/value pairs: a later duplicate
key overrides an earlier one, so lookup takes the last match. -/
def getField (fs : List (List Char × Json)) (k : List Char) : Option Json :=
  match fs with
  | [] => none
  | (k', v) :: rest =>
    match getField rest k with
    | some w => some w
    | none => if k' = k then some v else none

/-! ## Python exceptions -/

/-- Exception kinds that the embedded code can raise.  Messages are not
modelled.  `runtimeError` covers `RuntimeError`; `keyError` a dict lookup
miss; `validationError` pydantic's `ValidationError`; `typeError` a
non-mapping passed to `**`; `attributeError` calling `.keys()` on a
non-dict; the `groq…`/`lmStudio…` kinds are the custom backend exception
classes. -/
inductive PyExc where
  | runtimeError
  | keyError
  | validationError
  | typeError
  | attributeError
  | groqError
  | groqConnectionError
  | groqAPIError
  | lmStudioAPIError
deriving DecidableEq

instance {ε α : Type} [DecidableEq ε] [DecidableEq α] :
    DecidableEq (Except ε α) := fun x y =>
  match x, y with
  | .ok a, .ok b =>
      if h : a = b then .isTrue (by rw [h])
      else .isFalse (fun hh => h (by injection hh))
  | .error a, .error b =>
      if h : a = b then .isTrue (by rw [h])
      else .isFalse (fun hh => h (by injection hh))
  | .ok _, .error _ => .isFalse nofun
  | .error _, .ok _ => .isFalse nofun

/-! ## Heuristic JSON extraction from raw engine output

`GroqBackend._extract_json_or_return_content` searches `re.search(r'\x7b.*\x7d',
content, re.DOTALL)`: the leftmost-greedy match runs from the first brace
to the last closing brace, provided some closing brace follows the first
opening one.  `LMStudioBackend._extract_json_or_return_content` slices
from the first brace (`find`) to one past the last closing brace
(`rfind`).  Both substrings equal `braceSub` below. -/

/-- The substring from the first opening brace to the last closing brace
(empty when there is no opening brace, or no closing brace at or after it). -/
def braceSub (cs : List Char) : List Char :=
  ((cs.dropWhile (· ≠ '{')).reverse.dropWhile (· ≠ '}')).reverse

/-- `GroqBackend._extract_json_or_return_content`.  Empty/whitespace-only
content is returned as-is.  Otherwise the brace-delimited substring is
parsed first and returned when valid; else the whole content is parsed:
a valid JSON object is returned as-is, any other valid JSON value makes
the logging call `parsed.keys()` raise `AttributeError`, and invalid JSON
falls through to returning the content unchanged. -/
def groqExtract (content : List Char) : Except PyExc (List Char) :=
  if pyStrip content = [] then .ok content
  else
    let sub := braceSub content
    if sub ≠ [] ∧ (jsonParse sub).isSome then .ok sub
    else
      match jsonParse content with
      | some (.obj _) => .ok content
      | some _ => .error .attributeError
      | none => .ok content

/-- `LMStudioBackend._extract_json_or_return_content`: when the content
contains both braces, the brace-delimited substring is returned if it
parses as JSON; in every other case the content is returned unchanged. -/
def lmsExtract (content : List Char) : List Char :=
  if '{' ∈ content ∧ '}' ∈ content then
    let jsonPart := braceSub content
    if (jsonParse jsonPart).isSome then jsonPart else content
  else content

/-- Modelled from the spec's extraction order (§4.4 steps 1–2), for
comparison with the source's extractors: first parse the entire text and
use it directly when it is a valid JSON object; only if that fails take
the first-brace-to-last-brace substring and use it when it parses.  Later
cleanup steps are irrelevant to the ordering claim and return the content
unchanged here. -/
def specOrderExtract (content : List Char) : List Char :=
  match jsonParse content with
  | some (.obj _) => content
  | _ =>
    let sub := braceSub content
    if sub ≠ [] ∧ (jsonParse sub).isSome then sub else content

/-! ## Response models (`server/prompts/schema.py`)

Pydantic models as structures.  In `schema.py` the `original_grade` field
of `SimplificationResponse` carries a stray duplicated first line; the
surviving declaration is the `Optional[float]` one modelled here. -/

structure SimplificationResponse where
  plain : List Char
  rationale : List (List Char) := []
  cautions : List (List Char) := []
  readability_grade : Option PyFloat := none
  original_grade : Option PyFloat := none
deriving DecidableEq

structure TranslationResponse where
  translated : List Char
  target_language : List Char
  preserved_terms : List (List Char) := []
  confidence : PyFloat
  experimental : Bool := false
  cautions : List (List Char) := []
deriving DecidableEq

structure AcronymExpansion where
  acronym : List Char
  expansion : List Char
  definition : List Char := []
  confidence : PyFloat
  source : List Char
  source_url : Option (List Char) := none
deriving DecidableEq

structure AcronymResponse where
  acronyms : List AcronymExpansion := []
deriving DecidableEq

/-! ### Pydantic-style field validation

Constructing a model from `**data` ignores unknown keys, applies declared
defaults for missing optional fields, raises `ValidationError` for a
missing required field or an ill-typed value, and raises `TypeError` when
`data` is not a mapping. -/

def asStr : Json → Option (List Char)
  | .str s => some s
  | _ => none

def asNum : Json → Option PyFloat
  | .num q => some q
  | _ => none

def asBool : Json → Option Bool
  | .bool b => some b
  | _ => none

def asStrList : Json → Option (List (List Char))
  | .arr xs =>
      xs.foldr (fun x acc =>
        match asStr x, acc with
        | some s, some ss => some (s :: ss)
        | _, _ => none) (some [])
  | _ => none

/-- Lift a validation result, raising `ValidationError` on failure. -/
def vreq {α : Type} (o : Option α) : Except PyExc α :=
  match o with
  | some a => .ok a
  | none => .error .validationError

/-- Optional field of string type: absent or `null` gives `None`. -/
def optStrField (fs : List (List Char × Json)) (k : List Char) :
    Except PyExc (Option (List Char)) :=
  match getField fs k with
  | none => .ok none
  | some .null => .ok none
  | some v => vreq ((asStr v).map some)

/-- Optional field of float type: absent or `null` gives `None`. -/
def optNumField (fs : List (List Char × Json)) (k : List Char) :
    Except PyExc (Option PyFloat) :=
  match getField fs k with
  | none => .ok none
  | some .null => .ok none
  | some v => vreq ((asNum v).map some)

/-- String-list field with default `[]`. -/
def strListField (fs : List (List Char × Json)) (k : List Char) :
    Except PyExc (List (List Char)) :=
  match getField fs k with
  | none => .ok []
  | some v => vreq (asStrList v)

/-- `SimplificationResponse(**data)`. -/
def simplificationFromKwargs (j : Json) : Except PyExc SimplificationResponse :=
  match j with
  | .obj fs => do
      let plain ← vreq (getField fs "plain".data >>= asStr)
      let rationale ← strListField fs "rationale".data
      let cautions ← strListField fs "cautions".data
      let readability ← optNumField fs "readability_grade".data
      let original ← optNumField fs "original_grade".data
      .ok ⟨plain, rationale, cautions, readability, original⟩
  | _ => .error .typeError

/-- `TranslationResponse(**data)`. -/
def translationFromKwargs (j : Json) : Except PyExc TranslationResponse :=
  match j with
  | .obj fs => do
      let translated ← vreq (getField fs "translated".data >>= asStr)
      let lang ← vreq (getField fs "target_language".data >>= asStr)
      let terms ← strListField fs "preserved_terms".data
      let conf ← vreq (getField fs "confidence".data >>= asNum)
      let experimental ←
        match getField fs "experimental".data with
        | none => .ok false
        | some v => vreq (asBool v)
      let cautions ← strListField fs "cautions".data
      .ok ⟨translated, lang, terms, conf, experimental, cautions⟩
  | _ => .error .typeError

/-- One acronym entry validated as an `AcronymExpansion`. -/
def expansionFromJson (j : Json) : Except PyExc AcronymExpansion :=
  match j with
  | .obj fs => do
      let acronym ← vreq (getField fs "acronym".data >>= asStr)
      let expansion ← vreq (getField fs "expansion".data >>= asStr)
      let definition ←
        match getField fs "definition".data with
        | none => .ok []
        | some v => vreq (asStr v)
      let conf ← vreq (getField fs "confidence".data >>= asNum)
      let source ← vreq (getField fs "source".data >>= asStr)
      let url ← optStrField fs "source_url".data
      .ok ⟨acronym, expansion, definition, conf, source, url⟩
  | _ => .error .validationError

/-- `AcronymResponse(**data)` (the `acronyms` field defaults to `[]`;
unknown keys such as `expansions` or `cautions` are ignored). -/
def acronymFromKwargs (j : Json) : Except PyExc AcronymResponse :=
  match j with
  | .obj fs =>
      match getField fs "acronyms".data with
      | none => .ok ⟨[]⟩
      | some (.arr xs) => do
          let items ← xs.mapM expansionFromJson
          .ok ⟨items⟩
      | some _ => .error .validationError
  | _ => .error .typeError

/-! ## Small string utilities -/

/-- Python `sub in s.lower()` uses lowercase; the keywords involved are
ASCII, where `Char.toLower` agrees with Python `str.lower`. -/
def lowerList (cs : List Char) : List Char :=
  cs.map Char.toLower

/-- Python `pat in l` (substring containment). -/
def containsSub (l pat : List Char) : Bool :=
  pat.isPrefixOf l ||
    match l with
    | [] => false
    | _ :: t => containsSub t pat

/-- Python `str(n)` for an `int`. -/
def intStr (n : ℤ) : List Char :=
  if n < 0 then '-' :: Nat.toDigits 10 n.natAbs else Nat.toDigits 10 n.natAbs

/-- Python `str(b)` for a `bool`. -/
def boolStr (b : Bool) : List Char :=
  if b then "True".data else "False".data

/-- Python `'\n'.split` of a string into lines. -/
def splitLines : List Char → List (List Char)
  | [] => [[]]
  | '\n' :: t => [] :: splitLines t
  | c :: t =>
      match splitLines t with
      | l :: ls => (c :: l) :: ls
      | [] => [[c]]

/-- Python `sep.join` for a one-character separator. -/
def joinWith (c : Char) : List (List Char) → List Char
  | [] => []
  | [x] => x
  | x :: xs => x ++ c :: joinWith c xs

/-! ## A lazy-literal regex fragment

`GroqBackend._extract_clean_text` uses `re.sub` with patterns of the shape
`lit₀ .*? lit₁ .*? … litₙ` (optionally anchored at line starts via
`re.MULTILINE`, optionally with `. ` crossing newlines via `re.DOTALL`,
optionally with a leading lazy gap).  `tailMatch` implements the
backtracking search for `.*? lit …` sequences, returning the length of the
leftmost-lazy match. -/

def tailMatchGo (dotNl : Bool) : Nat → List (List Char) → List Char → Option Nat
  | 0, _, _ => none
  | _ + 1, [], _ => some 0
  | fuel + 1, lit :: rest, cs =>
      (if lit.isPrefixOf cs then
        match tailMatchGo dotNl fuel rest (cs.drop lit.length) with
        | some n => some (lit.length + n)
        | none => none
      else none) <|>
      (match cs with
       | [] => none
       | c :: t =>
          if !dotNl && c = '\n' then none
          else (tailMatchGo dotNl fuel (lit :: rest) t).map (· + 1))

/-- The backtracking search for a `.*? lit₁ .*? … litₙ` suffix.  Each
step of `tailMatchGo` shortens the literal list or the input, so this
fuel always suffices. -/
def tailMatch (lits : List (List Char)) (dotNl : Bool) (cs : List Char) :
    Option Nat :=
  tailMatchGo dotNl (lits.length + cs.length + 1) lits cs

/-- Match the pattern at the current position; `leadGap` is a leading
lazy gap before the first literal. -/
def matchAt (leadGap : Bool) (lits : List (List Char)) (dotNl : Bool)
    (cs : List Char) : Option Nat :=
  if leadGap then tailMatch lits dotNl cs
  else
    match lits with
    | [] => some 0
    | lit :: rest =>
        if lit.isPrefixOf cs then
          match tailMatch rest dotNl (cs.drop lit.length) with
          | some n => some (lit.length + n)
          | none => none
        else none

def reSubGo (anchored leadGap : Bool) (lits : List (List Char)) (dotNl : Bool) :
    Nat → List Char → Bool → List Char
  | 0, cs, _ => cs
  | _ + 1, [], _ => []
  | fuel + 1, c :: t, atLS =>
      if anchored && !atLS then
        c :: reSubGo anchored leadGap lits dotNl fuel t (decide (c = '\n'))
      else
        match matchAt leadGap lits dotNl (c :: t) with
        | some n =>
            if n = 0 then
              c :: reSubGo anchored leadGap lits dotNl fuel t (decide (c = '\n'))
            else
              reSubGo anchored leadGap lits dotNl fuel ((c :: t).drop n)
                (decide (((c :: t).take n).getLast? = some '\n'))
        | none => c :: reSubGo anchored leadGap lits dotNl fuel t (decide (c = '\n'))

/-- `re.sub(pattern, '', cs)` for the lazy-literal patterns above;
`anchored` models `^` with `re.MULTILINE`.  The final `Bool` says whether
the start of `cs` is a line start.  Each `reSubGo` step consumes at least
one input character, so the fuel always suffices. -/
def reSub (anchored leadGap : Bool) (lits : List (List Char)) (dotNl : Bool)
    (cs : List Char) (atLS : Bool) : List Char :=
  reSubGo anchored leadGap lits dotNl (cs.length + 1) cs atLS

/-- The first match of `"plain"\s*:\s*"([^"]*)"`, returning the capture. -/
def findPlainField : List Char → Option (List Char)
  | [] => none
  | cs@(_ :: t) =>
      (if ("\"plain\"".data).isPrefixOf cs then
        match (cs.drop 7).dropWhile isPyWs with
        | ':' :: r2 =>
            match r2.dropWhile isPyWs with
            | '"' :: r4 =>
                let cap := r4.takeWhile (· ≠ '"')
                if cap.length < r4.length then some cap else none
            | _ => none
        | _ => none
      else none) <|> findPlainField t

/-! ## Groq backend (`server/backends/groq_backend.py`) -/

def demoModeMessage : List Char := "🚧 Running in demo mode".data

/-- Phrases whose presence in a lowercased line marks it as reasoning, in
source order (`_extract_clean_text`). -/
def reasoningPhrases : List (List Char) :=
  ["we need to".data, "i need to".data, "the goal is to".data,
   "let\x27s".data, "first,".data, "second,".data, "provide".data,
   "ensure".data, "make sure".data, "it is important".data,
   "we can".data, "we should".data]

/-- `GroqBackend._extract_clean_text`: strip reasoning preambles and
instruction echoes, try to rescue a `"plain"` field from malformed JSON,
then keep only non-reasoning lines. -/
def extractCleanText (raw : List Char) : List Char :=
  if pyStrip raw = [] then "No content was generated".data
  else
    let c1 := reSub true false ["We need to".data, ". ".data] false raw true
    let c2 := reSub true false ["I need to".data, ". ".data] false c1 true
    let c3 := reSub true false ["The".data, "is to".data, ". ".data] false c2 true
    let c4 := reSub false true ["with plain simplified text".data, ". ".data] true c3 true
    let c5 := reSub false true ["Provide".data, ". ".data] true c4 true
    let rescued : Option (List Char) :=
      if '{' ∈ c5 ∧ '}' ∈ c5 then findPlainField c5 else none
    match rescued with
    | some cap => cap
    | none =>
        let kept := ((splitLines c5).map pyStrip).filter (fun l =>
          l ≠ [] && !(reasoningPhrases.any (fun p => containsSub (lowerList l) p)))
        let joined := joinWith ' ' kept
        if pyStrip joined = [] then
          "Content could not be extracted from AI response".data
        else joined

/-- Backend handle state: `demo_mode`, whether `self.client` is set, and
the API key read from the environment. -/
structure GroqSt where
  demo_mode : Bool
  hasClient : Bool
  apiKey : Option (List Char)
deriving DecidableEq

/-- Outcome of `_check_api_status` (it converts every transport error to
`GroqConnectionError` and every HTTP error to `GroqAPIError`). -/
inductive GroqProbe where
  | ok
  | connErr
  | apiErr
deriving DecidableEq

/-- `GroqBackend.initialize`: no httpx or no `GROQ` key in the
environment demotes to demo mode; a failed probe demotes to demo mode
(the client stays allocated); only a successful probe yields Ready.  The
function is total: `initialize` cannot raise. -/
def groqInitialize (httpxAvailable : Bool) (envKey : Option (List Char))
    (probe : GroqProbe) : GroqSt :=
  if !httpxAvailable then ⟨true, false, none⟩
  else
    match envKey with
    | none => ⟨true, false, none⟩
    | some k =>
        match probe with
        | .ok => ⟨false, true, some k⟩
        | _ => ⟨true, true, some k⟩

/-- What the chat-completions call and response-body parsing produced:
any transport/status/body failure (`httpErr`), a body without usable
choices (`noChoices`), or the first choice's message fields. -/
inductive GroqCallOutcome where
  | httpErr
  | noChoices
  | reply (content reasoning : List Char)

/-- The canned demo payloads of `_get_demo_response` (`json.dumps`
serializations; note `ensure_ascii` escapes `ç`). -/
def groqDemoSimplify : List Char :=
  ("\x7b\"plain\": \"This is a simplified version of the text. Complex terms have been replaced with simpler alternatives.\", \"rationale\": [\"Replaced technical jargon\", \"Shortened sentences\", \"Used common words\"], \"cautions\": [\"Some nuance may be lost in simplification\"], \"readability_grade\": 7.2\x7d").data

def groqDemoTranslate : List Char :=
  ("\x7b\"translated\": \"Ceci est une traduction du texte en fran\\u00e7ais.\", \"target_language\": \"French\", \"preserved_terms\": [\"specific terminology\"], \"confidence\": 0.85, \"cautions\": [\"Some context may be lost in translation\"]\x7d").data

def groqDemoAcronym : List Char :=
  ("\x7b\"expansions\": [\x7b\"acronym\": \"API\", \"expansion\": \"Application Programming Interface\", \"confidence\": 0.95\x7d, \x7b\"acronym\": \"JSON\", \"expansion\": \"JavaScript Object Notation\", \"confidence\": 0.98\x7d]\x7d").data

/-- `GroqBackend._get_demo_response`: dispatch on keywords of the
lowercased prompt, in source order. -/
def groqDemoResponse (prompt : List Char) : List Char :=
  if containsSub (lowerList prompt) ("simplify".data) then groqDemoSimplify
  else if containsSub (lowerList prompt) ("translate".data) then groqDemoTranslate
  else if containsSub (lowerList prompt) ("acronym".data) then groqDemoAcronym
  else demoModeMessage ++ ": Demo response for: ".data ++ prompt.take 50 ++ "...".data

/-- `GroqBackend._run_inference`.  In demo mode the canned response is
returned before any network access.  Without a client a bare `GroqError`
is raised (not one of the subclasses the operations catch).  Transport,
status and body-shape failures, an empty content/reasoning pair, and the
extractor's `AttributeError` all surface as `GroqAPIError` via the
`except` chain.  The state component records that the handle's fields
are never written during a request. -/
def groqRunInference (st : GroqSt) (prompt : List Char) (out : GroqCallOutcome) :
    GroqSt × Except PyExc (List Char) :=
  (st,
    if st.demo_mode then .ok (groqDemoResponse prompt)
    else if !st.hasClient then .error .groqError
    else
      match out with
      | .httpErr => .error .groqAPIError
      | .noChoices => .error .groqAPIError
      | .reply content reasoning =>
          let content2 :=
            if pyStrip content = [] ∧ pyStrip reasoning ≠ [] then reasoning
            else content
          if pyStrip content2 = [] then .error .groqAPIError
          else
            match groqExtract content2 with
            | .ok s => .ok s
            | .error _ => .error .groqAPIError)

/-- The `simplify` prompt template (placeholders `target_grade`, `text`). -/
def groqSimplifyPrompt (text : List Char) (grade : ℤ) : List Char :=
  ("You are a helpful assistant that simplifies Canadian government text. \n\nIMPORTANT: Respond with ONLY valid JSON. Do not include any explanation, reasoning, or other text.\n\nTask: Simplify this text to Grade ").data
  ++ intStr grade
  ++ (" reading level while preserving accuracy and acronyms.\n\nText: ").data
  ++ text
  ++ ("\n\nResponse format (JSON only):\n\x7b\n    \"plain\": \"your simplified text here\",\n    \"rationale\": [\"briefly explain major changes\"],\n    \"cautions\": [\"any important warnings\"],\n    \"readability_grade\": 7.0\n\x7d").data

/-- The `translate` prompt template (placeholders `target_language`, `text`). -/
def groqTranslatePrompt (text lang : List Char) : List Char :=
  ("You are a helpful translator for Canadian government content.\n\nIMPORTANT: Respond with ONLY the translated text. Do not include any explanations or reasoning.\n\nTranslate this text to ").data
  ++ lang
  ++ (":\n\n").data
  ++ text
  ++ ("\n\nTRANSLATED TEXT:").data

/-- The `acronym` prompt template (placeholder `text`; the `context`
keyword has no placeholder and is ignored by `str.format`). -/
def groqAcronymPrompt (text : List Char) : List Char :=
  ("Find and expand all acronyms in this text. Respond with ONLY valid JSON.\n\n").data
  ++ text
  ++ ("\n\nResponse format (JSON only):\n\x7b\n    \"expansions\": [\n        \x7b\n            \"acronym\": \"acronym\",\n            \"expansion\": \"full expansion\", \n            \"confidence\": 0.9\n        \x7d\n    ]\n\x7d").data

/-- `GroqBackend.simplify`.  Only `GroqConnectionError`/`GroqAPIError`
are absorbed into a cautioned fallback result; a bare `GroqError` or a
pydantic `ValidationError` propagates.  (The `rationale` entry of the
error fallback embeds `str(e)` in the source; messages are not
modelled.) -/
def groqSimplify (st : GroqSt) (text : List Char) (grade : ℤ)
    (out : GroqCallOutcome) : GroqSt × Except PyExc SimplificationResponse :=
  (st,
    let prompt := groqSimplifyPrompt text grade
    match (groqRunInference st prompt out).2 with
    | .error .groqConnectionError =>
        .ok ⟨"Simplification failed".data, ["Groq API error".data],
             ["An error occurred during processing".data], none, none⟩
    | .error .groqAPIError =>
        .ok ⟨"Simplification failed".data, ["Groq API error".data],
             ["An error occurred during processing".data], none, none⟩
    | .error e => .error e
    | .ok result =>
        match jsonParse result with
        | some j => simplificationFromKwargs j
        | none =>
            .ok ⟨extractCleanText result,
                 ["Response was not in expected JSON format".data],
                 ["AI response required cleanup - please verify accuracy".data],
                 none, none⟩)

/-- `GroqBackend.translate`.  The engine call is not wrapped in
`try`/`except`, so every engine-call error propagates; only JSON parse
failures are absorbed (into an uncautioned pass-through result with
confidence 0.8; the `experimental` argument is dropped there). -/
def groqTranslate (st : GroqSt) (text lang : List Char)
    (out : GroqCallOutcome) : GroqSt × Except PyExc TranslationResponse :=
  (st,
    let prompt := groqTranslatePrompt text lang
    match (groqRunInference st prompt out).2 with
    | .error e => .error e
    | .ok result =>
        match jsonParse result with
        | some j => translationFromKwargs j
        | none => .ok ⟨pyStrip result, lang, [], ⟨8, -1⟩, false, []⟩)

/-- `GroqBackend.expand_acronyms`.  Engine-call errors propagate; JSON
parse failures fall back to an empty response (whose `expansions` and
`cautions` keyword arguments are unknown to `AcronymResponse` and are
ignored). -/
def groqExpandAcronyms (st : GroqSt) (text : List Char)
    (out : GroqCallOutcome) : GroqSt × Except PyExc AcronymResponse :=
  (st,
    let prompt := groqAcronymPrompt text
    match (groqRunInference st prompt out).2 with
    | .error e => .error e
    | .ok result =>
        match jsonParse result with
        | some j => acronymFromKwargs j
        | none => .ok ⟨[]⟩)

/-! ## LM Studio backend (`server/backends/lmstudio_backend.py`) -/

/-- Handle state: the model selected at initialize time (`None` when no
model was found or initialization failed) and whether `self.session`
exists.  Python truthiness: an empty-string model name behaves like
`None` in `if not self.model_name`. -/
structure LmsSt where
  model_name : Option (List Char)
  hasSession : Bool
deriving DecidableEq

/-- Outcome of the POST to `/completions` inside
`_try_completions_endpoint`. -/
inductive LmsPrimaryOut where
  | connErr
  | badStatus
  | ok (choices : List (List Char))

/-- Outcome of the POST to `/chat/completions` inside
`_try_chat_completions_endpoint`. -/
inductive LmsSecondaryOut where
  | connErr
  | badStatus
  | ok (choices : List (List Char))

/-- What `_run_inference` produced, and whether the secondary
chat-completions endpoint was attempted on the way. -/
structure LmsRunOut where
  result : List Char
  chatTried : Bool
deriving DecidableEq

/-- The demo payloads of `LMStudioBackend._get_demo_response` (verbatim
multi-line literals from the source). -/
def lmsDemoSimplify : List Char :=
  ("\x7b\n  \"plain\": \"This is simplified text that\x27s easier to read. We removed jargon and used shorter sentences.\",\n  \"rationale\": [\n    \"Replaced \x27utilize\x27 with \x27use\x27\",\n    \"Split long sentence into two shorter ones\",\n    \"Removed unnecessary technical terms\"\n  ],\n  \"cautions\": [\"This is a demo response from LM Studio backend\"]\n\x7d").data

def lmsDemoTranslate : List Char :=
  ("\x7b\n  \"translated\": \"Ceci est le texte traduit en français.\",\n  \"target_language\": \"fr\",\n  \"preserved_terms\": [\"Canada Revenue Agency\"],\n  \"confidence\": 0.85,\n  \"cautions\": [\"This is a demo response from LM Studio backend\"]\n\x7d").data

def lmsDemoAcronym : List Char :=
  ("\x7b\n  \"acronyms\": [\n    \x7b\n      \"acronym\": \"CRA\",\n      \"expansion\": \"Canada Revenue Agency\",\n      \"definition\": \"Federal agency responsible for tax collection\",\n      \"confidence\": 0.95,\n      \"source\": \"ai_inference\"\n    \x7d\n  ]\n\x7d").data

/-- `LMStudioBackend._get_demo_response`: keyword dispatch on the
lowercased prompt. -/
def lmsDemoResponse (prompt : List Char) : List Char :=
  let lp := lowerList prompt
  if containsSub lp ("simplify".data) || containsSub lp ("plain language".data) then
    lmsDemoSimplify
  else if containsSub lp ("translate".data) || containsSub lp ("french".data) then
    lmsDemoTranslate
  else if containsSub lp ("acronym".data) then
    lmsDemoAcronym
  else ("\x7b\"result\": \"Demo response for LM Studio development\"\x7d").data

/-- `_try_chat_completions_endpoint`, given a live session: any error or
unusable body degrades to the demo response; a usable first choice goes
through the extractor. -/
def lmsChat (prompt : List Char) (sec : LmsSecondaryOut) : List Char :=
  match sec with
  | .ok (c :: _) => lmsExtract c
  | .ok [] => lmsDemoResponse prompt
  | .badStatus => lmsDemoResponse prompt
  | .connErr => lmsDemoResponse prompt

/-- `LMStudioBackend._run_inference`.  Without a model or session the
demo response is returned directly.  Otherwise `/completions` is tried
first: a connection error or timeout yields `None` and falls through to
the chat endpoint, as does a 200 reply without choices or with empty
extracted content (`if result:` is false for an empty string); but a
non-200 status raises `LMStudioAPIError`, which the enclosing `except`
turns into the demo response without attempting the chat endpoint.
The state component records that no handle field is written. -/
def lmsRunInference (st : LmsSt) (prompt : List Char)
    (pri : LmsPrimaryOut) (sec : LmsSecondaryOut) : LmsSt × LmsRunOut :=
  (st,
    if st.model_name.getD [] = [] || !st.hasSession then
      ⟨lmsDemoResponse prompt, false⟩
    else
      match pri with
      | .connErr => ⟨lmsChat prompt sec, true⟩
      | .badStatus => ⟨lmsDemoResponse prompt, false⟩
      | .ok [] => ⟨lmsChat prompt sec, true⟩
      | .ok (c :: _) =>
          let r := lmsExtract c
          if r = [] then ⟨lmsChat prompt sec, true⟩ else ⟨r, false⟩)

/-- Python `text[:500] + "..." if len(text) > 500 else text`. -/
def truncate500 (cs : List Char) : List Char :=
  if 500 < cs.length then cs.take 500 ++ "...".data else cs

/-- ASCII uppercase. -/
def isUpperA (c : Char) : Bool := 'A' ≤ c && c ≤ 'Z'

/-- Python regex `\w` (ASCII part; the keyword inputs are ASCII). -/
def isWordChar (c : Char) : Bool :=
  isUpperA c || ('a' ≤ c && c ≤ 'z') || c.isDigit || c = '_'

def findAcronymGo (prevIsWord : Bool) :
    Nat → List Char → List (List Char)
  | 0, _ => []
  | _ + 1, [] => []
  | fuel + 1, c :: t =>
      if isUpperA c && !prevIsWord then
        let run := (c :: t).takeWhile isUpperA
        let rest := (c :: t).drop run.length
        if 2 ≤ run.length && !isWordChar (rest.headD ' ') then
          run :: findAcronymGo true fuel rest
        else findAcronymGo true fuel rest
      else findAcronymGo (isWordChar c) fuel t

/-- `re.findall(r'\b[A-Z]\x7b2,\x7d\b', text)`: maximal uppercase runs of
length at least two with non-word neighbours.  A run that fails cannot
contain a later match start (every inner position is preceded by a word
character), so the scan resumes after it.  Each step consumes at least
one character, so the fuel suffices. -/
def findAcronymTokens (text : List Char) : List (List Char) :=
  findAcronymGo false (text.length + 1) text

/-- The LM Studio `simplify` template (no override files ship with the
repository, so the built-in template is always used). -/
def lmsSimplifyPrompt (text : List Char) (grade : ℤ) (preserve : Bool)
    (ctx : List Char) : List Char :=
  ("You are a plain language expert specializing in simplifying Canadian government text.\n\nTask: Simplify the following text to grade ").data
  ++ intStr grade
  ++ (" reading level while preserving meaning and official terms.\n\nOriginal text: \"").data
  ++ text
  ++ ("\"\n\nRequirements:\n- Target reading level: Grade ").data
  ++ intStr grade
  ++ ("\n- Use shorter sentences (15-20 words max)\n- Replace jargon with everyday words\n- Use active voice\n- Keep the same essential meaning\n- Preserve acronyms: ").data
  ++ boolStr preserve
  ++ ("\n- Context: ").data
  ++ ctx
  ++ ("\n\nRespond ONLY with valid JSON in this exact format:\n\x7b\n  \"plain\": \"simplified text here\",\n  \"rationale\": [\"specific change 1\", \"specific change 2\"],\n  \"cautions\": [\"any important warnings or limitations\"]\n\x7d").data

/-- The LM Studio `translate` template. -/
def lmsTranslatePrompt (text lang : List Char) (preserve exper : Bool) :
    List Char :=
  ("You are a Canadian government translation expert.\n\nTask: Translate the following text to ").data
  ++ lang
  ++ (" while maintaining official tone and preserving government terminology.\n\nText to translate: \"").data
  ++ text
  ++ ("\"\n\nRequirements:\n- Target language: ").data
  ++ lang
  ++ ("\n- Preserve official terms and department names: ").data
  ++ boolStr preserve
  ++ ("\n- Maintain formal government tone\n- Experimental features enabled: ").data
  ++ boolStr exper
  ++ ("\n- Ensure accuracy for government communications\n\nRespond ONLY with valid JSON in this exact format:\n\x7b\n  \"translated\": \"translated text here\",\n  \"preserved_terms\": [\"term1\", \"term2\"],\n  \"confidence\": 0.95,\n  \"cautions\": [\"any translation notes or warnings\"]\n\x7d").data

/-- The LM Studio `acronyms` template. -/
def lmsAcronymsPrompt (text ctx : List Char) : List Char :=
  ("You are an expert in Canadian government terminology and acronyms.\n\nTask: Identify and expand all acronyms in the following text, providing clear definitions suitable for public understanding.\n\nText: \"").data
  ++ text
  ++ ("\"\nContext: \"").data
  ++ ctx
  ++ ("\"\n\nRequirements:\n- Focus on government, legal, and administrative acronyms\n- Provide clear, public-friendly definitions\n- Include confidence scores based on certainty\n- Note the source of information\n\nRespond ONLY with valid JSON in this exact format:\n\x7b\n  \"acronyms\": [\n    \x7b\n      \"acronym\": \"CRA\",\n      \"expansion\": \"Canada Revenue Agency\",\n      \"definition\": \"Federal agency responsible for tax collection and benefits administration\",\n      \"confidence\": 0.95,\n      \"source\": \"ai_inference\"\n    \x7d\n  ]\n\x7d").data

/-- `LMStudioBackend.simplify`.  A JSON object reply is normalized with
`.get` defaults; JSON parse failure falls back to the truncated raw text
with a caution.  A valid JSON non-object makes `.get` raise; an ill-typed
`plain` value makes the readability call / validation raise (the external
`textstat` behaviour is abstracted; `readability` models
`_calculate_readability` on strings). -/
def lmsSimplify (st : LmsSt) (text : List Char) (grade : ℤ) (preserve : Bool)
    (ctx : List Char) (pri : LmsPrimaryOut) (sec : LmsSecondaryOut)
    (readability : List Char → PyFloat) :
    LmsSt × Except PyExc SimplificationResponse :=
  (st,
    let prompt := lmsSimplifyPrompt text grade preserve ctx
    let rt := ((lmsRunInference st prompt pri sec).2).result
    match jsonParse rt with
    | some (.obj fs) =>
        (match asStr ((getField fs ("plain".data)).getD (.str text)) with
        | none => .error .attributeError
        | some plain => do
            let rationale ←
              match getField fs ("rationale".data) with
              | none => pure []
              | some v => vreq (asStrList v)
            let cautions ←
              match getField fs ("cautions".data) with
              | none => pure []
              | some v => vreq (asStrList v)
            .ok ⟨plain, rationale, cautions,
                 some (readability plain), some (readability text)⟩)
    | some _ => .error .attributeError
    | none =>
        .ok ⟨truncate500 rt, ["Simplified using LM Studio".data],
             ["JSON parsing failed".data],
             some (readability rt), some (readability text)⟩)

/-- `LMStudioBackend.translate`: `.get` defaults on a JSON object reply
(confidence default 0.8); parse failure falls back to the truncated raw
text with confidence 0.5 and a caution.  No clamping is applied to the
engine-reported confidence anywhere on this path. -/
def lmsTranslate (st : LmsSt) (text lang : List Char) (preserve exper : Bool)
    (pri : LmsPrimaryOut) (sec : LmsSecondaryOut) :
    LmsSt × Except PyExc TranslationResponse :=
  (st,
    let prompt := lmsTranslatePrompt text lang preserve exper
    let rt := ((lmsRunInference st prompt pri sec).2).result
    match jsonParse rt with
    | some (.obj fs) => do
        let translated ←
          match getField fs ("translated".data) with
          | none => pure text
          | some v => vreq (asStr v)
        let terms ←
          match getField fs ("preserved_terms".data) with
          | none => pure []
          | some v => vreq (asStrList v)
        let conf ←
          match getField fs ("confidence".data) with
          | none => pure (⟨8, -1⟩ : PyFloat)
          | some v => vreq (asNum v)
        let cautions ←
          match getField fs ("cautions".data) with
          | none => pure []
          | some v => vreq (asStrList v)
        .ok ⟨translated, lang, terms, conf, exper, cautions⟩
    | some _ => .error .attributeError
    | none =>
        .ok ⟨truncate500 rt, lang, [], ⟨5, -1⟩, exper,
             ["JSON parsing failed".data]⟩)

/-- `LMStudioBackend.expand_acronyms`: a JSON object reply yields its
validated `acronyms` list (default `[]`); parse failure falls back to
pattern-matched uppercase tokens from the input text with confidence 0.3
and source `pattern_matching`. -/
def lmsExpandAcronyms (st : LmsSt) (text ctx : List Char)
    (pri : LmsPrimaryOut) (sec : LmsSecondaryOut) :
    LmsSt × Except PyExc AcronymResponse :=
  (st,
    let prompt := lmsAcronymsPrompt text ctx
    let rt := ((lmsRunInference st prompt pri sec).2).result
    match jsonParse rt with
    | some (.obj fs) =>
        (match getField fs ("acronyms".data) with
        | none => .ok ⟨[]⟩
        | some (.arr xs) => do
            let items ← xs.mapM expansionFromJson
            .ok ⟨items⟩
        | some _ => .error .validationError)
    | some _ => .error .attributeError
    | none =>
        .ok ⟨(findAcronymTokens text).map (fun a =>
          ⟨a, ("Unknown expansion for ".data) ++ a,
           ("Definition not available").data, ⟨3, -1⟩,
           ("pattern_matching").data, none⟩)⟩)

/-! ## llama.cpp backend (`server/backends/llama_cpp.py`) -/

/-- Events on the per-request subprocess, in order of occurrence:
`spawn` (`create_subprocess_exec`), `communicate` (normal completion,
which also reaps the process), `kill` (`process.kill()` on timeout),
`wait` (`await process.wait()` reaping the killed process). -/
inductive ProcEvent where
  | spawn
  | communicate
  | kill
  | wait
deriving DecidableEq

/-- Result of `asyncio.wait_for(process.communicate(), timeout=60)`. -/
inductive WaitOutcome where
  | completed (rc : ℤ) (stdout stderr : List Char)
  | timedOut

structure LlamaRunOut where
  trace : List ProcEvent
  result : Except PyExc (List Char)
deriving DecidableEq

/-- True when the trace spawned a process that was neither reaped by
`communicate` nor killed-and-waited. -/
def processLeftRunning (tr : List ProcEvent) : Bool :=
  tr.contains .spawn && !(tr.contains .communicate || tr.contains .wait)

/-- The demo payloads of `LlamaCppBackend._get_demo_response`. -/
def llamaDemoSimplify : List Char :=
  ("\x7b\n  \"plain\": \"This is simplified text that\x27s easier to read. We removed jargon and used shorter sentences.\",\n  \"rationale\": [\n    \"Replaced \x27utilize\x27 with \x27use\x27\",\n    \"Split long sentence into two shorter ones\",\n    \"Removed unnecessary technical terms\"\n  ],\n  \"cautions\": [\"This is a demo response\"]\n\x7d").data

def llamaDemoTranslate : List Char :=
  ("\x7b\n  \"translated\": \"Ceci est le texte traduit en français.\",\n  \"target_language\": \"French\",\n  \"preserved_terms\": [\"Canada Revenue Agency\"],\n  \"confidence\": 0.85,\n  \"cautions\": [\"This is a demo response\"]\n\x7d").data

def llamaDemoAcronym : List Char :=
  ("\x7b\n  \"acronyms\": [\n    \x7b\n      \"acronym\": \"CRA\",\n      \"expansion\": \"Canada Revenue Agency\",\n      \"definition\": \"Federal agency responsible for tax collection\",\n      \"confidence\": 0.95,\n      \"source\": \"ai_inference\"\n    \x7d\n  ]\n\x7d").data

def llamaDemoResponse (prompt : List Char) : List Char :=
  let lp := lowerList prompt
  if containsSub lp ("simplify".data) || containsSub lp ("plain language".data) then
    llamaDemoSimplify
  else if containsSub lp ("translate".data) || containsSub lp ("french".data) then
    llamaDemoTranslate
  else if containsSub lp ("acronym".data) then
    llamaDemoAcronym
  else ("\x7b\"result\": \"Demo response for development\"\x7d").data

/-- `LlamaCppBackend._run_inference`.  Without a loaded model a
`RuntimeError` is raised; without a model file the demo response is
returned before any process is spawned.  On `asyncio.TimeoutError` the
process is killed, then awaited (reaped), and then `RuntimeError` is
raised (re-wrapped by the enclosing `except Exception`).  A nonzero exit
code raises `RuntimeError`.  On success the stripped stdout is
returned. -/
def llamaRunInference (modelLoaded modelFileExists : Bool)
    (prompt : List Char) (w : WaitOutcome) : LlamaRunOut :=
  if !modelLoaded then ⟨[], .error .runtimeError⟩
  else if !modelFileExists then ⟨[], .ok (llamaDemoResponse prompt)⟩
  else
    match w with
    | .timedOut => ⟨[.spawn, .kill, .wait], .error .runtimeError⟩
    | .completed rc out _ =>
        if rc ≠ 0 then ⟨[.spawn, .communicate], .error .runtimeError⟩
        else ⟨[.spawn, .communicate], .ok (pyStrip out)⟩

/-- The llama.cpp `simplify` template (indentation verbatim from the
multi-line source literal). -/
def llamaSimplifyPrompt (text : List Char) (grade : ℤ) (preserve : Bool)
    (ctx : List Char) : List Char :=
  ("You are a plain language expert. \n            Simplify the following text to grade ").data
  ++ intStr grade
  ++ (" reading level. \n\nOriginal text: ").data
  ++ text
  ++ ("\n\nInstructions:\n- Use shorter sentences\n- Replace jargon with simple words\n- Keep the same meaning\n- Preserve acronyms if ").data
  ++ boolStr preserve
  ++ ("\n- Context: ").data
  ++ ctx
  ++ ("\n\nReturn JSON format:\n\x7b\n  \"plain\": \"simplified text here\",\n  \"rationale\": [\"change 1\", \"change 2\"],\n  \"cautions\": [\"any warnings\"]\n\x7d").data

def llamaTranslatePrompt (text lang : List Char) (preserve exper : Bool) :
    List Char :=
  ("Translate the following text to ").data
  ++ lang
  ++ (".\n\nText: ").data
  ++ text
  ++ ("\n\nInstructions:\n- Preserve official terms if ").data
  ++ boolStr preserve
  ++ ("\n- Maintain formal government tone\n- Experimental features: ").data
  ++ boolStr exper
  ++ ("\n\nReturn JSON format:\n\x7b\n  \"translated\": \"translated text\",\n  \"preserved_terms\": [\"term1\", \"term2\"],\n  \"confidence\": 0.85,\n  \"cautions\": [\"warnings\"]\n\x7d").data

def llamaAcronymsPrompt (text ctx : List Char) : List Char :=
  ("Find and expand acronyms in the following text.\n\nText: ").data
  ++ text
  ++ ("\nContext: ").data
  ++ ctx
  ++ ("\n\nReturn JSON format:\n\x7b\n  \"acronyms\": [\n    \x7b\n      \"acronym\": \"CRA\",\n      \"expansion\": \"Canada Revenue Agency\",\n      \"definition\": \"Federal tax agency\",\n      \"confidence\": 0.95,\n      \"source\": \"ai_inference\"\n    \x7d\n  ]\x7d").data

/-- `LlamaCppBackend.simplify`: a `json.JSONDecodeError` is re-raised as
`RuntimeError`; a reply without a `plain` key raises `KeyError`; any
engine error propagates.  No fallback result exists on this backend. -/
def llamaSimplify (modelLoaded modelFileExists : Bool) (text : List Char)
    (grade : ℤ) (preserve : Bool) (ctx : List Char) (w : WaitOutcome)
    (readability : List Char → PyFloat) : Except PyExc SimplificationResponse :=
  let prompt := llamaSimplifyPrompt text grade preserve ctx
  match (llamaRunInference modelLoaded modelFileExists prompt w).result with
  | .error e => .error e
  | .ok rt =>
    match jsonParse rt with
    | some (.obj fs) =>
        (match getField fs ("plain".data) with
        | none => .error .keyError
        | some plainJ =>
          match asStr plainJ with
          | none => .error .attributeError
          | some plain => do
              let rationale ←
                match getField fs ("rationale".data) with
                | none => pure []
                | some v => vreq (asStrList v)
              let cautions ←
                match getField fs ("cautions".data) with
                | none => pure []
                | some v => vreq (asStrList v)
              .ok ⟨plain, rationale, cautions,
                   some (readability plain), some (readability text)⟩)
    | some _ => .error .typeError
    | none => .error .runtimeError

/-- `LlamaCppBackend.translate`: same raising structure as `simplify`. -/
def llamaTranslate (modelLoaded modelFileExists : Bool) (text lang : List Char)
    (preserve exper : Bool) (w : WaitOutcome) :
    Except PyExc TranslationResponse :=
  let prompt := llamaTranslatePrompt text lang preserve exper
  match (llamaRunInference modelLoaded modelFileExists prompt w).result with
  | .error e => .error e
  | .ok rt =>
    match jsonParse rt with
    | some (.obj fs) =>
        (match getField fs ("translated".data) with
        | none => .error .keyError
        | some trJ => do
            let translated ← vreq (asStr trJ)
            let terms ←
              match getField fs ("preserved_terms".data) with
              | none => pure []
              | some v => vreq (asStrList v)
            let conf ←
              match getField fs ("confidence".data) with
              | none => pure (⟨8, -1⟩ : PyFloat)
              | some v => vreq (asNum v)
            let cautions ←
              match getField fs ("cautions".data) with
              | none => pure []
              | some v => vreq (asStrList v)
            .ok ⟨translated, lang, terms, conf, exper, cautions⟩)
    | some _ => .error .typeError
    | none => .error .runtimeError

/-- `LlamaCppBackend.expand_acronyms`: indexes `response_data["acronyms"]`
directly (raising `KeyError` when absent). -/
def llamaExpandAcronyms (modelLoaded modelFileExists : Bool)
    (text ctx : List Char) (w : WaitOutcome) : Except PyExc AcronymResponse :=
  let prompt := llamaAcronymsPrompt text ctx
  match (llamaRunInference modelLoaded modelFileExists prompt w).result with
  | .error e => .error e
  | .ok rt =>
    match jsonParse rt with
    | some (.obj fs) =>
        (match getField fs ("acronyms".data) with
        | none => .error .keyError
        | some (.arr xs) => do
            let items ← xs.mapM expansionFromJson
            .ok ⟨items⟩
        | some _ => .error .validationError)
    | some _ => .error .typeError
    | none => .error .runtimeError

/-! ## The valid-JSON branch of each extractor

`…JsonBranch t = some c` holds exactly when extracting `t` takes the
brace-substring branch and returns the valid-JSON payload `c`; used to
state extraction idempotence. -/

def groqJsonBranch (t : List Char) : Option (List Char) :=
  if pyStrip t ≠ [] ∧ braceSub t ≠ [] ∧ (jsonParse (braceSub t)).isSome then
    some (braceSub t)
  else none

def lmsJsonBranch (t : List Char) : Option (List Char) :=
  if '{' ∈ t ∧ '}' ∈ t ∧ (jsonParse (braceSub t)).isSome then
    some (braceSub t)
  else none

/-! ## Generic facts about `braceSub` and the extractors -/

theorem jsonParse_nil : jsonParse [] = none := rfl

theorem head?_dropWhile_not {p : Char → Bool} {l : List Char} {c : Char}
    (h : (l.dropWhile p).head? = some c) : p c = false := by
  induction l with
  | nil => simp at h
  | cons x xs ih =>
      rw [List.dropWhile_cons] at h
      by_cases hp : p x
      · rw [if_pos hp] at h
        exact ih h
      · rw [if_neg hp] at h
        have hx : x = c := by simpa using h
        subst hx
        simpa [Bool.not_eq_true] using hp

theorem getLast?_dropWhile {p : Char → Bool} {l : List Char}
    (h : l.dropWhile p ≠ []) : (l.dropWhile p).getLast? = l.getLast? := by
  conv_rhs => rw [← List.takeWhile_append_dropWhile (p := p) (l := l)]
  exact (List.getLast?_append_of_ne_nil _ h).symm

theorem braceSub_ne_nil_head {cs : List Char} (h : braceSub cs ≠ []) :
    (braceSub cs).head? = some '{' := by
  revert h
  unfold braceSub
  generalize hd1 : cs.dropWhile (· ≠ '{') = d1
  generalize hw : d1.reverse.dropWhile (· ≠ '}') = w
  intro h
  have hwne : w ≠ [] := by
    intro hnil
    exact h (by rw [hnil]; rfl)
  have hd1ne : d1 ≠ [] := by
    intro hnil
    apply hwne
    rw [← hw, hnil]
    rfl
  rw [List.head?_reverse]
  have hlast : w.getLast? = d1.reverse.getLast? := by
    rw [← hw]
    exact getLast?_dropWhile (by rw [hw]; exact hwne)
  rw [hlast, List.getLast?_reverse]
  obtain ⟨c, t, rfl⟩ := List.exists_cons_of_ne_nil hd1ne
  have hc : (fun x => decide (x ≠ '{')) c = false :=
    head?_dropWhile_not (l := cs) (by rw [hd1]; rfl)
  have : c = '{' := by simpa using hc
  simp [this]

theorem braceSub_ne_nil_getLast {cs : List Char} (h : braceSub cs ≠ []) :
    (braceSub cs).getLast? = some '}' := by
  revert h
  unfold braceSub
  generalize hd1 : cs.dropWhile (· ≠ '{') = d1
  generalize hw : d1.reverse.dropWhile (· ≠ '}') = w
  intro h
  have hwne : w ≠ [] := by
    intro hnil
    exact h (by rw [hnil]; rfl)
  rw [List.getLast?_reverse]
  obtain ⟨c, t, rfl⟩ := List.exists_cons_of_ne_nil hwne
  have hc : (fun x => decide (x ≠ '}')) c = false :=
    head?_dropWhile_not (l := d1.reverse) (by rw [hw]; rfl)
  have : c = '}' := by simpa using hc
  simp [this]

theorem braceSub_eq_self {cs : List Char}
    (h1 : cs.head? = some '{') (h2 : cs.getLast? = some '}') :
    braceSub cs = cs := by
  have hd : cs.dropWhile (· ≠ '{') = cs := by
    cases cs with
    | nil => rfl
    | cons c t =>
        have hc : c = '{' := by simpa using h1
        subst hc
        rw [List.dropWhile_cons]
        simp
  have hrev : cs.reverse.dropWhile (· ≠ '}') = cs.reverse := by
    cases hr : cs.reverse with
    | nil => rfl
    | cons d u =>
        have hhead : cs.reverse.head? = some '}' := by
          rw [List.head?_reverse]
          exact h2
        rw [hr] at hhead
        have hdch : d = '}' := by simpa using hhead
        subst hdch
        rw [List.dropWhile_cons]
        simp
  unfold braceSub
  rw [hd, hrev, List.reverse_reverse]

theorem pyStrip_ne_nil {cs : List Char} {c : Char}
    (h1 : cs.head? = some c) (h2 : isPyWs c = false) : pyStrip cs ≠ [] := by
  intro hnil
  unfold pyStrip at hnil
  rw [List.reverse_eq_nil_iff, List.dropWhile_eq_nil_iff] at hnil
  have hmem : c ∈ (cs.dropWhile isPyWs).reverse := by
    rw [List.mem_reverse]
    have : cs.dropWhile isPyWs = cs := by
      obtain ⟨x, t, rfl⟩ : ∃ x t, cs = x :: t := by
        cases cs with
        | nil => simp at h1
        | cons x t => exact ⟨x, t, rfl⟩
      have hx : x = c := by simpa using h1
      subst hx
      rw [List.dropWhile_cons, if_neg (by simp [h2])]
    rw [this]
    exact List.mem_of_mem_head? h1
  have := hnil c hmem
  rw [h2] at this
  exact Bool.false_ne_true this

theorem mem_of_getLast? {cs : List Char} {c : Char}
    (h : cs.getLast? = some c) : c ∈ cs := by
  rw [← List.head?_reverse] at h
  rw [← List.mem_reverse]
  exact List.mem_of_mem_head? h

/-- The Groq extractor maps any string that begins with `\x7b`, ends with
`\x7d` and parses as JSON to itself. -/
theorem groqExtract_fixpoint {cs : List Char}
    (h1 : cs.head? = some '{') (h2 : cs.getLast? = some '}')
    (h3 : (jsonParse cs).isSome = true) : groqExtract cs = .ok cs := by
  have hsub : braceSub cs = cs := braceSub_eq_self h1 h2
  have hne : cs ≠ [] := by intro hnil; rw [hnil] at h1; simp at h1
  have hstrip : pyStrip cs ≠ [] := pyStrip_ne_nil h1 (by rfl)
  unfold groqExtract
  rw [if_neg hstrip]
  simp only [hsub]
  rw [if_pos ⟨hne, h3⟩]

/-- The LM Studio extractor maps any such string to itself as well. -/
theorem lmsExtract_fixpoint {cs : List Char}
    (h1 : cs.head? = some '{') (h2 : cs.getLast? = some '}')
    (h3 : (jsonParse cs).isSome = true) : lmsExtract cs = cs := by
  have hsub : braceSub cs = cs := braceSub_eq_self h1 h2
  unfold lmsExtract
  rw [if_pos ⟨List.mem_of_mem_head? h1, mem_of_getLast? h2⟩]
  simp only [hsub]
  rw [if_pos h3]


theorem pyStrip_nil : pyStrip [] = [] := rfl

/-- The demo-mode fallback banner can never parse as JSON (its first
character matches no JSON token). -/
theorem jsonParse_warnsign_cons (x : List Char) : jsonParse ('🚧' :: x) = none := rfl

/-- On content that is not valid JSON and has no valid brace substring,
the Groq extractor returns the content unchanged. -/
theorem groqExtract_nonjson {content : List Char}
    (h1 : (jsonParse content).isNone = true)
    (h2 : (jsonParse (braceSub content)).isNone = true)
    (h3 : pyStrip content ≠ []) : groqExtract content = .ok content := by
  unfold groqExtract
  rw [if_neg h3]
  have hcond : ¬(braceSub content ≠ [] ∧ (jsonParse (braceSub content)).isSome = true) := by
    rintro ⟨-, hs⟩
    rw [Option.isNone_iff_eq_none] at h2
    rw [h2] at hs
    simp at hs
  rw [if_neg hcond]
  rw [Option.isNone_iff_eq_none] at h1
  simp only [h1]

/-- Likewise for the LM Studio extractor. -/
theorem lmsExtract_nonjson {content : List Char}
    (h2 : (jsonParse (braceSub content)).isNone = true) :
    lmsExtract content = content := by
  unfold lmsExtract
  by_cases hb : '{' ∈ content ∧ '}' ∈ content
  · rw [if_pos hb]
    have hns : ¬ ((jsonParse (braceSub content)).isSome = true) := by
      rw [Option.isNone_iff_eq_none] at h2
      simp [h2]
    simp only []
    rw [if_neg hns]
  · rw [if_neg hb]

/-! ## Claim theorems -/

/-- C2 (counterexample): a timed-out inference call does not return a
normalized failure-flavored result — `_run_inference` raises
`RuntimeError` after killing the process, and `simplify` propagates it. -/
theorem c2_counterexample :
    (llamaRunInference true true ("p".data) .timedOut).result =
      .error .runtimeError ∧
    llamaSimplify true true ("text".data) 7 true [] .timedOut (fun _ => ⟨0, 0⟩) =
      .error .runtimeError :=
  ⟨rfl, rfl⟩

/-- C2 (amended): on timeout the llama.cpp backend kills the subprocess
and then awaits (reaps) it, in that order, before control returns, and
no process is left running; but the call raises `RuntimeError` rather
than returning a normalized result. -/
theorem c2_timeout_kill_and_reap (prompt : List Char) :
    llamaRunInference true true prompt .timedOut =
      ⟨[.spawn, .kill, .wait], .error .runtimeError⟩ ∧
    processLeftRunning ((llamaRunInference true true prompt .timedOut).trace) =
      false :=
  ⟨rfl, rfl⟩

/-- C3 (counterexample): with a model selected, a non-200 status from the
primary completions endpoint returns the demo response without attempting
the secondary chat endpoint, even when the secondary would have usable
choices. -/
theorem c3_counterexample :
    (lmsRunInference ⟨some ("gpt-oss".data), true⟩ ("p".data) .badStatus
        (.ok [("usable".data)])).2 =
      ⟨lmsDemoResponse ("p".data), false⟩ := by
  decide

/-- C3 (amended): the primary endpoint is consulted first and its usable
content is returned without touching the secondary; the secondary chat
endpoint is attempted when the primary has a connection error or timeout,
returns no choices, or yields empty extracted content; but a non-200
primary status raises `LMStudioAPIError`, which short-circuits to the
demo response with the secondary never attempted. -/
theorem c3_fallback_order :
    (∀ m prompt sec, m ≠ [] →
      ((lmsRunInference ⟨some m, true⟩ prompt .connErr sec).2).chatTried = true) ∧
    (∀ m prompt sec, m ≠ [] →
      ((lmsRunInference ⟨some m, true⟩ prompt (.ok []) sec).2).chatTried = true) ∧
    (∀ m prompt sec c rest, m ≠ [] → lmsExtract c = [] →
      ((lmsRunInference ⟨some m, true⟩ prompt (.ok (c :: rest)) sec).2).chatTried =
        true) ∧
    (∀ m prompt sec c rest, m ≠ [] → lmsExtract c ≠ [] →
      (lmsRunInference ⟨some m, true⟩ prompt (.ok (c :: rest)) sec).2 =
        ⟨lmsExtract c, false⟩) ∧
    (∀ m prompt sec, m ≠ [] →
      (lmsRunInference ⟨some m, true⟩ prompt .badStatus sec).2 =
        ⟨lmsDemoResponse prompt, false⟩) := by
  refine ⟨?_, ?_, ?_, ?_, ?_⟩
  · intro m prompt sec hm
    simp [lmsRunInference, hm]
  · intro m prompt sec hm
    simp [lmsRunInference, hm]
  · intro m prompt sec c rest hm hc
    simp [lmsRunInference, hm, hc]
  · intro m prompt sec c rest hm hc
    simp [lmsRunInference, hm, hc]
  · intro m prompt sec hm
    simp [lmsRunInference, hm]

/-- C3 (witness). -/
theorem c3_witness :
    ((lmsRunInference ⟨some ("m".data), true⟩ ("p".data) .connErr
        (.ok [("x".data)])).2).chatTried = true :=
  c3_fallback_order.1 ("m".data) ("p".data) (.ok [("x".data)]) (by decide)

/-- C5 (counterexample): on `" \x7b\x7d"` — whole text valid JSON after
whitespace — the Groq extractor returns the brace substring, not the
entire text that the spec's order (whole-text parse first, used
directly) would return. -/
theorem c5_counterexample :
    groqExtract (" \x7b\x7d".data) = .ok ("\x7b\x7d".data) ∧
    specOrderExtract (" \x7b\x7d".data) = (" \x7b\x7d".data) ∧
    ("\x7b\x7d".data) ≠ (" \x7b\x7d".data) := by
  refine ⟨by decide, by decide, by decide⟩

/-- C5 (amended): extraction tries the first-brace-to-last-brace
substring FIRST and returns it whenever it parses, even when the entire
text is itself valid JSON; the whole-text parse is only consulted after
the substring attempt fails (and the LM Studio variant never consults it
at all — it returns the content unchanged in every other case).  The
third conjunct: with no valid substring and invalid whole text, content
passes through unchanged. -/
theorem c5_extraction_order :
    (∀ cs, pyStrip cs ≠ [] → (jsonParse (braceSub cs)).isSome = true →
      groqExtract cs = .ok (braceSub cs)) ∧
    (∀ cs, '{' ∈ cs → '}' ∈ cs → (jsonParse (braceSub cs)).isSome = true →
      lmsExtract cs = braceSub cs) ∧
    (∀ cs, pyStrip cs ≠ [] → (jsonParse (braceSub cs)).isNone = true →
      (jsonParse cs).isNone = true → groqExtract cs = .ok cs) := by
  refine ⟨?_, ?_, ?_⟩
  · intro cs h1 h2
    have hne : braceSub cs ≠ [] := by
      intro hnil
      rw [hnil] at h2
      simp [jsonParse_nil] at h2
    unfold groqExtract
    rw [if_neg h1]
    simp only []
    rw [if_pos ⟨hne, h2⟩]
  · intro cs hm1 hm2 h2
    unfold lmsExtract
    rw [if_pos ⟨hm1, hm2⟩]
    simp only []
    rw [if_pos h2]
  · intro cs h1 h2 h3
    exact groqExtract_nonjson h3 h2 h1

/-- C5 (witness). -/
theorem c5_witness :
    groqExtract ("x \x7b\x7d y".data) = .ok (braceSub ("x \x7b\x7d y".data)) ∧
    lmsExtract ("x \x7b\x7d y".data) = braceSub ("x \x7b\x7d y".data) ∧
    groqExtract ("plain text".data) = .ok ("plain text".data) := by
  refine ⟨c5_extraction_order.1 ("x \x7b\x7d y".data) (by decide) (by decide),
          c5_extraction_order.2.1 ("x \x7b\x7d y".data) (by decide) (by decide) (by decide),
          c5_extraction_order.2.2 ("plain text".data) (by decide) (by decide) (by decide)⟩

/-- C6: extraction is idempotent on the payloads it produced in
valid-JSON form — both extractors map any payload produced by their
brace-substring branch to itself, unchanged. -/
theorem c6_extraction_idempotent :
    (∀ t c, groqJsonBranch t = some c → groqExtract c = .ok c) ∧
    (∀ t c, lmsJsonBranch t = some c → lmsExtract c = c) := by
  constructor
  · intro t c h
    unfold groqJsonBranch at h
    split at h
    case isTrue hcond =>
      obtain ⟨-, h2, h3⟩ := hcond
      injection h with h'
      subst h'
      exact groqExtract_fixpoint (braceSub_ne_nil_head h2)
        (braceSub_ne_nil_getLast h2) h3
    case isFalse => exact absurd h (by simp)
  · intro t c h
    unfold lmsJsonBranch at h
    split at h
    case isTrue hcond =>
      obtain ⟨-, -, h3⟩ := hcond
      have h2 : braceSub t ≠ [] := by
        intro hnil
        rw [hnil] at h3
        simp [jsonParse_nil] at h3
      injection h with h'
      subst h'
      exact lmsExtract_fixpoint (braceSub_ne_nil_head h2)
        (braceSub_ne_nil_getLast h2) h3
    case isFalse => exact absurd h (by simp)

/-- C6 (witness). -/
theorem c6_witness :
    groqJsonBranch ("x\x7b\x7d".data) = some ("\x7b\x7d".data) ∧
    groqExtract ("\x7b\x7d".data) = .ok ("\x7b\x7d".data) ∧
    lmsJsonBranch ("y\x7b\x7d".data) = some ("\x7b\x7d".data) ∧
    lmsExtract ("\x7b\x7d".data) = ("\x7b\x7d".data) :=
  ⟨by decide,
   c6_extraction_idempotent.1 ("x\x7b\x7d".data) ("\x7b\x7d".data) (by decide),
   by decide,
   c6_extraction_idempotent.2 ("y\x7b\x7d".data) ("\x7b\x7d".data) (by decide)⟩

/-- C9: no request-level operation writes any handle field — every
operation returns the handle state it was given, for every state and
every engine outcome (including errors and timeouts); demo mode is
decided only by `initialize`. -/
theorem c9_request_frame :
    (∀ st p o, (groqRunInference st p o).1 = st) ∧
    (∀ st t g o, (groqSimplify st t g o).1 = st) ∧
    (∀ st t l o, (groqTranslate st t l o).1 = st) ∧
    (∀ st t o, (groqExpandAcronyms st t o).1 = st) ∧
    (∀ st p pri sec, (lmsRunInference st p pri sec).1 = st) ∧
    (∀ st t g pv c pri sec f, (lmsSimplify st t g pv c pri sec f).1 = st) ∧
    (∀ st t l pv e pri sec, (lmsTranslate st t l pv e pri sec).1 = st) ∧
    (∀ st t c pri sec, (lmsExpandAcronyms st t c pri sec).1 = st) :=
  ⟨fun _ _ _ => rfl, fun _ _ _ _ => rfl, fun _ _ _ _ => rfl, fun _ _ _ => rfl,
   fun _ _ _ _ => rfl, fun _ _ _ _ _ _ _ _ => rfl, fun _ _ _ _ _ _ _ => rfl,
   fun _ _ _ _ _ => rfl⟩

/-- The Groq inference call raises `GroqAPIError` on an empty
content/reasoning pair. -/
theorem groqRun_reply_empty {key : Option (List Char)} {prompt content : List Char}
    (hs : pyStrip content = []) :
    (groqRunInference ⟨false, true, key⟩ prompt (.reply content [])).2 =
      .error .groqAPIError := by
  simp [groqRunInference, hs, pyStrip_nil]

/-- The Groq inference call passes nonempty non-JSON content through
unchanged. -/
theorem groqRun_reply_nonjson {key : Option (List Char)} {prompt content : List Char}
    (h1 : (jsonParse content).isNone = true)
    (h2 : (jsonParse (braceSub content)).isNone = true)
    (h3 : pyStrip content ≠ []) :
    (groqRunInference ⟨false, true, key⟩ prompt (.reply content [])).2 =
      .ok content := by
  simp [groqRunInference, pyStrip_nil, h3, groqExtract_nonjson h1 h2 h3]

/-- The LM Studio inference call returns nonempty content of a usable
primary choice unchanged when it holds no JSON. -/
theorem lmsRun_primary_content {m prompt content : List Char}
    {sec : LmsSecondaryOut} (hm : m ≠ []) (hc : content ≠ [])
    (h2 : (jsonParse (braceSub content)).isNone = true) :
    ((lmsRunInference ⟨some m, true⟩ prompt (.ok [content]) sec).2).result =
      content := by
  simp [lmsRunInference, hm, hc, lmsExtract_nonjson h2]

/-- C1 (counterexample): operations do raise.  The llama.cpp backend's
`simplify` raises `RuntimeError` on non-JSON engine output, and the Groq
backend's `translate` propagates an engine-call error. -/
theorem c1_counterexample :
    llamaSimplify true true ("Hi".data) 7 true [] (.completed 0 ("hello".data) [])
        (fun _ => ⟨0, 0⟩) = .error .runtimeError ∧
    (groqTranslate ⟨false, true, some ("k".data)⟩ ("Hi".data) ("French".data)
        .httpErr).2 = .error .groqAPIError :=
  ⟨rfl, rfl⟩

/-- C1 (amended): for engine output that is not JSON (no valid whole-text
parse and no valid brace substring), the Groq backend's `simplify`
returns a cautioned result on every outcome (engine errors included),
its `translate` and `expand_acronyms` absorb the parse failure of
nonempty output, and all three LM Studio operations return normal
results (cautioned where the result type allows); but the Groq
`translate` propagates engine-call errors, and the llama.cpp `simplify`
raises on non-JSON output. -/
theorem c1_never_throw_amended :
    (∀ key text grade content, (jsonParse content).isNone = true →
      (jsonParse (braceSub content)).isNone = true →
      ∃ r, (groqSimplify ⟨false, true, key⟩ text grade (.reply content [])).2 =
        .ok r ∧ r.cautions ≠ []) ∧
    (∀ key text grade,
      ∃ r, (groqSimplify ⟨false, true, key⟩ text grade .httpErr).2 = .ok r ∧
        r.cautions ≠ []) ∧
    (∀ key text lang content, (jsonParse content).isNone = true →
      (jsonParse (braceSub content)).isNone = true → pyStrip content ≠ [] →
      (groqTranslate ⟨false, true, key⟩ text lang (.reply content [])).2 =
        .ok ⟨pyStrip content, lang, [], ⟨8, -1⟩, false, []⟩) ∧
    (∀ key text lang,
      (groqTranslate ⟨false, true, key⟩ text lang .httpErr).2 =
        .error .groqAPIError) ∧
    (∀ key text content, (jsonParse content).isNone = true →
      (jsonParse (braceSub content)).isNone = true → pyStrip content ≠ [] →
      (groqExpandAcronyms ⟨false, true, key⟩ text (.reply content [])).2 =
        .ok ⟨[]⟩) ∧
    (∀ m text grade pv ctx sec f content, m ≠ [] → content ≠ [] →
      (jsonParse content).isNone = true →
      (jsonParse (braceSub content)).isNone = true →
      ∃ r, (lmsSimplify ⟨some m, true⟩ text grade pv ctx (.ok [content]) sec f).2 =
        .ok r ∧ r.cautions ≠ []) ∧
    (∀ m text lang pv e sec content, m ≠ [] → content ≠ [] →
      (jsonParse content).isNone = true →
      (jsonParse (braceSub content)).isNone = true →
      ∃ r, (lmsTranslate ⟨some m, true⟩ text lang pv e (.ok [content]) sec).2 =
        .ok r ∧ r.cautions ≠ []) ∧
    (∀ m text ctx sec content, m ≠ [] → content ≠ [] →
      (jsonParse content).isNone = true →
      (jsonParse (braceSub content)).isNone = true →
      ∃ r, (lmsExpandAcronyms ⟨some m, true⟩ text ctx (.ok [content]) sec).2 =
        .ok r) ∧
    (∀ text grade pv ctx f content, (jsonParse (pyStrip content)).isNone = true →
      llamaSimplify true true text grade pv ctx (.completed 0 content []) f =
        .error .runtimeError) := by
  refine ⟨?_, ?_, ?_, ?_, ?_, ?_, ?_, ?_, ?_⟩
  · intro key text grade content h1 h2
    by_cases hs : pyStrip content = []
    · refine ⟨⟨("Simplification failed").data, [("Groq API error").data],
        [("An error occurred during processing").data], none, none⟩, ?_, by simp⟩
      simp [groqSimplify, groqRun_reply_empty hs]
    · refine ⟨⟨extractCleanText content,
        [("Response was not in expected JSON format").data],
        [("AI response required cleanup - please verify accuracy").data],
        none, none⟩, ?_, by simp⟩
      rw [Option.isNone_iff_eq_none] at h1
      simp [groqSimplify, groqRun_reply_nonjson (by simp [h1]) h2 hs, h1]
  · intro key text grade
    refine ⟨⟨("Simplification failed").data, [("Groq API error").data],
      [("An error occurred during processing").data], none, none⟩, ?_, by simp⟩
    simp [groqSimplify, groqRunInference]
  · intro key text lang content h1 h2 h3
    rw [Option.isNone_iff_eq_none] at h1
    simp [groqTranslate, groqRun_reply_nonjson (by simp [h1]) h2 h3, h1]
  · intro key text lang
    simp [groqTranslate, groqRunInference]
  · intro key text content h1 h2 h3
    rw [Option.isNone_iff_eq_none] at h1
    simp [groqExpandAcronyms, groqRun_reply_nonjson (by simp [h1]) h2 h3, h1]
  · intro m text grade pv ctx sec f content hm hc h1 h2
    refine ⟨⟨truncate500 content, [("Simplified using LM Studio").data],
      [("JSON parsing failed").data], some (f content), some (f text)⟩,
      ?_, by simp⟩
    rw [Option.isNone_iff_eq_none] at h1
    simp [lmsSimplify, lmsRun_primary_content hm hc h2, h1]
  · intro m text lang pv e sec content hm hc h1 h2
    refine ⟨⟨truncate500 content, lang, [], ⟨5, -1⟩, e,
      [("JSON parsing failed").data]⟩, ?_, by simp⟩
    rw [Option.isNone_iff_eq_none] at h1
    simp [lmsTranslate, lmsRun_primary_content hm hc h2, h1]
  · intro m text ctx sec content hm hc h1 h2
    refine ⟨⟨(findAcronymTokens text).map (fun a =>
      ⟨a, ("Unknown expansion for ".data) ++ a,
       ("Definition not available").data, ⟨3, -1⟩,
       ("pattern_matching").data, none⟩)⟩, ?_⟩
    rw [Option.isNone_iff_eq_none] at h1
    simp [lmsExpandAcronyms, lmsRun_primary_content hm hc h2, h1]
  · intro text grade pv ctx f content h1
    rw [Option.isNone_iff_eq_none] at h1
    simp [llamaSimplify, llamaRunInference, h1]

/-- C1 (witness). -/
theorem c1_witness :
    (∃ r, (groqSimplify ⟨false, true, some ("k".data)⟩ ("Hi".data) 7
        (.reply ("hello world".data) [])).2 = .ok r ∧ r.cautions ≠ []) ∧
    (groqTranslate ⟨false, true, some ("k".data)⟩ ("Hi".data) ("fr".data)
        (.reply ("hello world".data) [])).2 =
      .ok ⟨pyStrip ("hello world".data), "fr".data, [], ⟨8, -1⟩, false, []⟩ ∧
    (∃ r, (lmsSimplify ⟨some ("m".data), true⟩ ("Hi".data) 7 true []
        (.ok [("hello world".data)]) .connErr (fun _ => ⟨0, 0⟩)).2 =
      .ok r ∧ r.cautions ≠ []) ∧
    llamaSimplify true true ("Hi".data) 7 true [] (.completed 0 ("plain out".data) [])
        (fun _ => ⟨0, 0⟩) = .error .runtimeError := by
  obtain ⟨ha, -, hc, -, -, hf, -, -, hi⟩ := c1_never_throw_amended
  exact ⟨ha _ _ _ _ (by decide) (by decide),
         hc _ _ _ _ (by decide) (by decide) (by decide),
         hf _ _ _ _ _ _ _ _ (by decide) (by decide) (by decide) (by decide),
         hi _ _ _ _ _ _ (by decide)⟩

/-- C4 (code evaluated at the failing input): the LM Studio `translate`
passes the raw engine confidence 1.4 through unclamped — the result's
confidence exceeds 1. -/
theorem c4_confidence_not_clamped :
    ∃ r, (lmsTranslate ⟨some ("gpt-oss".data), true⟩ ("Hello".data) ("fr".data)
        true false
        (.ok [("\x7b\"translated\": \"Bonjour\", \"confidence\": 1.4\x7d").data])
        .connErr).2 = .ok r ∧
      r.translated = ("Bonjour".data) ∧ r.confidence = ⟨14, -1⟩ ∧
      ¬ (r.confidence.toRat ≤ 1) := by
  refine ⟨⟨("Bonjour".data), ("fr".data), [], ⟨14, -1⟩, false, []⟩,
    by decide, rfl, rfl, ?_⟩
  norm_num [PyFloat.toRat]

/-- C7: the non-JSON raw output of the scenario normalizes, via the Groq
plain-text cleanup, to exactly the stripped sentence with a non-empty
caution list flagging the non-JSON fallback. -/
theorem c7_nonjson_cleanup_scenario :
    (groqSimplify ⟨false, true, some ("k".data)⟩ ("Hello".data) 7
        (.reply ("We need to simplify this. The text is now easy to read.".data)
          [])).2 =
      .ok ⟨("The text is now easy to read.").data,
           [("Response was not in expected JSON format").data],
           [("AI response required cleanup - please verify accuracy").data],
           none, none⟩ := by
  decide

set_option maxRecDepth 80000 in
/-- C8 (counterexample): after a credential-less initialize, demo-mode
`translate` on text containing `simplify` receives the simplify demo
payload, whose fields fail `TranslationResponse` validation — the
operation raises instead of returning a canned demo result. -/
theorem c8_counterexample :
    groqInitialize true none .ok = ⟨true, false, none⟩ ∧
    (groqTranslate ⟨true, false, none⟩ ("simplify".data) ("French".data)
        .httpErr).2 = .error .validationError := by
  exact ⟨rfl, by decide⟩

set_option maxRecDepth 80000 in
/-- C8 (amended): `initialize()` without a credential (or without httpx)
completes without raising — it is total — and leaves the handle in demo
mode with no client, never Failed; each operation then serves the canned
demo payload, which normalizes to a well-typed canned result when the
input text does not inject an earlier task's keyword (always for
`simplify`; the demo `expand_acronyms` list comes out empty, see C10). -/
theorem c8_demo_mode_on_missing_credential :
    (∀ probe, groqInitialize true none probe = ⟨true, false, none⟩) ∧
    (∀ probe key, groqInitialize false key probe = ⟨true, false, none⟩) ∧
    ((groqInitialize true none .ok).demo_mode = true) ∧
    ((groqSimplify ⟨true, false, none⟩ ("Hello".data) 7 .httpErr).2 =
      .ok ⟨("This is a simplified version of the text. Complex terms have been replaced with simpler alternatives.").data,
           [("Replaced technical jargon").data, ("Shortened sentences").data,
            ("Used common words").data],
           [("Some nuance may be lost in simplification").data],
           some ⟨72, -1⟩, none⟩) ∧
    ((groqTranslate ⟨true, false, none⟩ ("Hello".data) ("French".data) .httpErr).2 =
      .ok ⟨("Ceci est une traduction du texte en français.").data, ("French").data,
           [("specific terminology").data], ⟨85, -2⟩, false,
           [("Some context may be lost in translation").data]⟩) ∧
    ((groqExpandAcronyms ⟨true, false, none⟩ ("Hello".data) .httpErr).2 =
      .ok ⟨[]⟩) := by
  exact ⟨fun _ => rfl, fun _ _ => rfl, rfl, by decide, by decide, by decide⟩

/-- Every demo payload is one of three fixed JSON strings or starts with
the demo banner character. -/
theorem groqDemo_cases (prompt : List Char) :
    groqDemoResponse prompt = groqDemoSimplify ∨
    groqDemoResponse prompt = groqDemoTranslate ∨
    groqDemoResponse prompt = groqDemoAcronym ∨
    ∃ x, groqDemoResponse prompt = '🚧' :: x := by
  unfold groqDemoResponse
  split
  · exact .inl rfl
  · split
    · exact .inr (.inl rfl)
    · split
      · exact .inr (.inr (.inl rfl))
      · refine .inr (.inr (.inr ⟨(" Running in demo mode".data) ++
          ((": Demo response for: ").data ++ (prompt.take 50 ++ ("...").data)), ?_⟩))
        rw [show demoModeMessage = '🚧' :: (" Running in demo mode".data) from rfl]
        simp only [List.cons_append, List.append_assoc]

set_option maxRecDepth 80000 in
/-- C10: in demo mode, `expand_acronyms` always returns an empty acronym
list, for every input text and engine outcome: every canned demo payload
stores its entries under keys other than `acronyms` (the acronym payload
uses `expansions`), which `AcronymResponse(**data)` silently ignores. -/
theorem c10_demo_expansions_dropped (hasC : Bool) (key : Option (List Char))
    (text : List Char) (out : GroqCallOutcome) :
    (groqExpandAcronyms ⟨true, hasC, key⟩ text out).2 = .ok ⟨[]⟩ := by
  have hred : (groqExpandAcronyms ⟨true, hasC, key⟩ text out).2 =
      (match jsonParse (groqDemoResponse (groqAcronymPrompt text)) with
       | some j => acronymFromKwargs j
       | none => .ok ⟨[]⟩) := rfl
  rw [hred]
  obtain h | h | h | ⟨x, h⟩ := groqDemo_cases (groqAcronymPrompt text)
  · rw [h]
    decide
  · rw [h]
    decide
  · rw [h]
    decide
  · rw [h, jsonParse_warnsign_cons]

end MapleClear
